import Mathlib

/-!
# Verification of `ngsPETSc/utils/firedrake.py`

A shallow embedding of the Netgen/NGSolve-to-Firedrake mesh bridge:
`refineMarkedElements`, `curveField` and `FiredrakeMesh.__init__`.
External collaborators (PETSc, netgen's `Refine`/`Curve`/`CalcElementMapping`,
Firedrake's interpolation) are modelled by their observable inputs/outputs,
carried as fields of the embedded state; the module's own control flow and
data movement are translated statement by statement.

Coordinates are modelled as rationals; Python float rounding `round(x, 8)`
is carried as an abstract function field of the state, since none of the
verified properties depend on the numeric rounding rule itself.
-/

namespace NgsPETScFiredrake

/-- A point in physical space: a list of rational coordinate components. -/
abbrev Pt := List ℚ

/-- A serial (netgen) mesh element, with the two per-element flags that
`firedrake.py` reads and writes: `el.curved` and `el.refine`. -/
structure Element where
  curved : Bool
  refine : Bool
deriving DecidableEq, Repr, Inhabited

/-- Python truthiness of a scalar marking value (`if mark[getIdx(i)]:`):
a numeric value is truthy iff it is nonzero. -/
def truthy (v : Int) : Bool := v != 0

/-! ## State for `refineMarkedElements` (lines 28-56)

The Firedrake mesh `self`, as far as `refineMarkedElements` reads it:
geometric dimension, `self._cell_numbering.getOffset`, presence of
`self.sfBCInv`, MPI rank, the local marking array `mark.dat.vec`, the
external `distributeField` exchange, and the rank-0 serial netgen mesh. -/

structure RefineState where
  /-- Models `self.geometric_dimension()`. -/
  geometric_dimension : Nat
  /-- Models `self._cell_numbering.getOffset`. -/
  getOffset : Nat → Nat
  /-- whether `self.sfBCInv` is not `None` (worker count > 1) -/
  sfBCInv_present : Bool
  /-- Models `self.comm.Get_rank()`. -/
  rank : Nat
  /-- the local per-cell values of the marking function, `mark.dat.vec` -/
  marked : List Int
  /-- the external PETSc exchange
  `self.topology_dm.distributeField(self.sfBCInv, self._cell_numbering, marked)`:
  redistributes the local value array back to serial order -/
  distributeField : List Int → List Int
  /-- Models `self.netgen_mesh.Elements2D()`, the rank-0 serial mesh elements. -/
  elements2D : List Element

/-- Modelled from the spec: netgen's `Refine(adaptive=True)` routine is not part
of this repository; the spec describes it as a black box that "refines elements
flagged `True`, leaves others coarse".  Each element flagged `refine` is split
into child elements (four, for 2D bisection-style refinement) and every
unflagged element is kept as is. -/
def ngRefine (els : List Element) : List Element :=
  els.flatMap fun e =>
    if e.refine then
      [⟨e.curved, false⟩, ⟨e.curved, false⟩, ⟨e.curved, false⟩, ⟨e.curved, false⟩]
    else [e]

/-- Lines 38-44: the marking array and index function actually used for
flagging.  `getIdx` starts as `self._cell_numbering.getOffset`; when
`self.sfBCInv` is present the array is first redistributed to serial order via
`distributeField` and `getIdx` becomes the identity `lambda x: x`. -/
def resolveMarking (st : RefineState) : (Nat → Nat) × List Int :=
  if st.sfBCInv_present then
    (fun x => x, st.distributeField st.marked)
  else
    (st.getOffset, st.marked)

/-- The value returned by `refineMarkedElements`: either `fd.Mesh(self.netgen_mesh)`
built from the refined serial mesh, or `fd.Mesh(netgen.libngpy._meshing.Mesh(2))`,
an empty placeholder serial mesh of the given dimension. -/
inductive RefineResult where
  | mesh (els : List Element)
  | emptyMesh (dim : Nat)
deriving DecidableEq, Repr

/-- Lines 46-51: on rank 0, iterate over `self.netgen_mesh.Elements2D()` and
set each element's `refine` flag to the truthiness of `mark[getIdx(i)]`, with
`getIdx` and `mark` as resolved by lines 38-44. -/
def refineFlagged (st : RefineState) : List Element :=
  st.elements2D.mapIdx fun i el =>
    { el with
      refine := truthy ((resolveMarking st).2.getD ((resolveMarking st).1 i) 0) }

/-- Lines 28-56, `refineMarkedElements(self, mark)`.  Returns the possibly-raised
exception or the produced mesh, together with the final state (so that absence
of mutation on the error path is a provable statement).  On the 2D path the
marking is resolved (lines 38-44); on rank 0 every serial element's `refine`
flag is set to the truthiness of `mark[getIdx(i)]` (lines 46-51), the mesh is
adaptively refined (line 52) and a Firedrake mesh is built from it (line 53);
on other ranks an empty placeholder 2D mesh is wrapped (line 54).  Any other
dimension raises `NotImplementedError` (line 56). -/
def refineMarkedElements (st : RefineState) :
    Except String RefineResult × RefineState :=
  if st.geometric_dimension = 2 then
    if st.rank = 0 then
      let refined := ngRefine (refineFlagged st)
      (Except.ok (RefineResult.mesh refined), { st with elements2D := refined })
    else
      (Except.ok (RefineResult.emptyMesh 2), st)
  else
    (Except.error "No implementation for dimension other than 2.", st)

/-! ## State for `curveField` (lines 58-122)

The Firedrake mesh `self` together with the observable behaviour of the
external collaborators `curveField` calls: Firedrake's interpolation (which
produces the initial DG coordinate data `V`), the FIAT reference element
(only the number of reference points matters downstream), and the netgen
mesh's `CalcElementMapping` / `Curve` routines, modelled by the straight and
curved per-element point arrays and the post-`Curve` element flags. -/

structure CurveState where
  /-- Models `self.geometric_dimension()`. -/
  geometric_dimension : Nat
  /-- Models `self._cell_numbering.getOffset`. -/
  getOffset : Nat → Nat
  /-- Python's `round(x, 8)` on a coordinate component (float rounding,
  carried abstractly: no verified property depends on the rounding rule) -/
  round8 : ℚ → ℚ
  /-- Models `refPts.shape[0]`, the number of reference points enumerated from
  `ref_element.sub_entities` (lines 71-75) -/
  nRef : Nat
  /-- Models `newFunctionCoordinates.dat.data`: the DG coordinate rows produced by
  `fd.interpolate(self.coordinates, fd.VectorFunctionSpace(self, "DG", order))`
  (lines 65-67); also the array mutated in place by the write-back loops -/
  V : List Pt
  /-- Models `cellMap.values[c]` for `cellMap = newFunctionCoordinates.cell_node_map()`. -/
  cellMapValues : Nat → List Nat
  /-- Models `len(self.netgen_mesh.Elements2D())`. -/
  n2 : Nat
  /-- Models `el.curved` of the i-th 2D element after `self.netgen_mesh.Curve(order)`. -/
  curved2 : Nat → Bool
  /-- Models `physPts[i]`: rows produced by `CalcElementMapping` before `Curve`
  (straight-sided mapping), each of length `nRef` -/
  mapS2 : Nat → List Pt
  /-- Models `curvedPhysPts[i]`: rows produced by `CalcElementMapping` after `Curve`. -/
  mapC2 : Nat → List Pt
  /-- Models `len(self.netgen_mesh.Elements3D())`. -/
  n3 : Nat
  /-- Models `el.curved` of the i-th 3D element after `Curve`. -/
  curved3 : Nat → Bool
  /-- straight-sided `physPts[i]` for 3D elements -/
  mapS3 : Nat → List Pt
  /-- curved `curvedPhysPts[i]` for 3D elements -/
  mapC3 : Nat → List Pt

/-- Lookup in `dofMap = {k: v for v, k in enumerate(pts)}` (lines 91, 114):
the dictionary maps each rounded point to its index in `pts`, a later
duplicate key overwriting an earlier one; a missing key is `none`
(Python raises `KeyError`). -/
def dictLookup (keys : List Pt) (k : Pt) : Option Nat :=
  (List.range keys.length).foldl
    (fun acc v => if keys.getD v [] = k then some v else acc) none

/-- The write-back loop (lines 95-97 and 118-121): for each pair of a DOF slot
`datIdx` and a permuted curved point, overwrite the first `d` components of
row `datIdx` of the data array (`newFunctionCoordinates.sub(k).dat.data[datIdx] = ...`
for `k < d`). -/
def writeBack (d : Nat) (data : List Pt) (pairs : List (Nat × Pt)) : List Pt :=
  pairs.foldl
    (fun acc sv => acc.set sv.1 ((sv.2.take d) ++ ((acc.getD sv.1 []).drop d)))
    data

/-- The DOF slots of element `i` that the loop body touches:
`cellMap.values[getIdx(i)][0:refPts.shape[0]]`. -/
def cellSlots (st : CurveState) (i : Nat) : List Nat :=
  (st.cellMapValues (st.getOffset i)).take st.nRef

/-- The value `pts` of lines 89-90 / 112-113: the straight-sided sample points of element
`i` (`physPts[i][0:refPts.shape[0]]`), each component rounded to 8 decimals —
the keys of the dictionary `dofMap`. -/
def roundedKeys (st : CurveState) (mapS : Nat → List Pt) (i : Nat) : List Pt :=
  ((mapS i).take st.nRef).map fun p => p.map st.round8

/-- The DOF coordinate rows of element `i` read from a data array:
`V[cellMap.values[getIdx(i)]][0:refPts.shape[0]]` (lines 93 / 116), where the
array read is the current state of `newFunctionCoordinates.dat.data`. -/
def dofRows (st : CurveState) (data : List Pt) (i : Nat) : List Pt :=
  (cellSlots st i).map fun s => data.getD s []

/-- One iteration of the per-element loop of `curveField`
(lines 87-97 for 2D with `d = 2`, lines 110-121 for 3D with `d = 3`):
if the element is flagged `curved`, round its straight-sided sample points
(lines 89-90 / 112-113), look each of its current DOF rows (rounded) up in the
resulting dictionary to build the permutation `p` (lines 91-93 / 114-116) —
a missing key raises `KeyError` — permute the curved points
(line 94 / 117) and write them back into the data array (lines 95-97 /
118-121); otherwise the data array is untouched. -/
def processCell (st : CurveState) (curved : Nat → Bool) (mapS mapC : Nat → List Pt)
    (d : Nat) (data : List Pt) (i : Nat) : Except String (List Pt) :=
  if curved i then
    match (dofRows st data i).mapM
        (fun r => dictLookup (roundedKeys st mapS i) (r.map st.round8)) with
    | none => Except.error "KeyError"
    | some p =>
      let permuted := p.map fun j => (mapC i).getD j []
      Except.ok (writeBack d data ((cellSlots st i).zip permuted))
  else
    Except.ok data

/-- The full per-element loop of a dimension branch of `curveField`:
`for i, el in enumerate(self.netgen_mesh.Elements2D())` (resp. `Elements3D`),
threading the mutable data array, propagating a `KeyError`. -/
def curveLoop (st : CurveState) (curved : Nat → Bool) (mapS mapC : Nat → List Pt)
    (d n : Nat) : Except String (List Pt) :=
  (List.range n).foldlM (processCell st curved mapS mapC d) st.V

/-- Result of `curveField`: the final coordinate data of
`newFunctionCoordinates`, plus whether `self.netgen_mesh.Curve(order)` was
invoked (i.e. whether the serial mesh was mutated). -/
structure CurveOut where
  data : List Pt
  curveInvoked : Bool
deriving DecidableEq, Repr

/-- Lines 58-122, `curveField(self, order)`.  The coordinate field is first
initialized by straight-sided interpolation (data `V`).  Line 76 guards the 2D
branch (`if self.geometric_dimension() == 2`), line 99 the 3D branch (a second
independent `if`; at most one of the two can hold); each branch computes the
straight mapping, calls `Curve(order)`, computes the curved mapping and runs
the per-element loop.  When the dimension is neither 2 nor 3, neither branch
runs: no error is raised, `Curve` is never called, and the interpolated field
is returned unchanged (line 122). -/
def curveField (st : CurveState) : Except String CurveOut :=
  if st.geometric_dimension = 2 then
    (curveLoop st st.curved2 st.mapS2 st.mapC2 2 st.n2).map
      fun data => { data := data, curveInvoked := true }
  else if st.geometric_dimension = 3 then
    (curveLoop st st.curved3 st.mapS3 st.mapC3 3 st.n3).map
      fun data => { data := data, curveInvoked := true }
  else
    Except.ok { data := st.V, curveInvoked := false }

/-! ## `FiredrakeMesh.__init__` (lines 124-161)

Lines 17-24: when `import ngsolve` fails, a dummy class is substituted with
`ngs.comp.Mesh = type(None)`; whether ngsolve imported is therefore part of
the environment in which the `isinstance` check of line 134 runs. -/

/-- The possible values of the `mesh` argument of `FiredrakeMesh.__init__`:
an NGSolve mesh (`ngs.comp.Mesh`), a netgen mesh (`ngm.Mesh`), a PETSc DMPlex
handle, or Python `None`. -/
inductive InputMesh where
  | ngsolveMesh
  | netgenMesh
  | petscPlex
  | pyNone
deriving DecidableEq, Repr

/-- Line 134, `isinstance(mesh, (ngs.comp.Mesh, ngm.Mesh))`.  When ngsolve
failed to import, `ngs.comp.Mesh` is `type(None)` (lines 20-24), so `None`
is an instance of the tuple exactly when ngsolve is unavailable; an NGSolve
mesh instance can only exist when ngsolve is available. -/
def isinstanceSerial (ngsolveAvailable : Bool) : InputMesh → Bool
  | InputMesh.ngsolveMesh => true
  | InputMesh.netgenMesh => true
  | InputMesh.petscPlex => false
  | InputMesh.pyNone => !ngsolveAvailable

/-- The `netgen_flags` dictionary, restricted to the three keys the
constructor looks up.  `none` in the outer `Option` means the key is absent
(dictionary access raises `KeyError`); the inner value is the Python value
stored under the key.  `purify_to_tets` and `quad` are used for their
truthiness; `transform` is compared against `None` (the inner `Option`). -/
structure NetgenFlags where
  purify_to_tets : Option Bool
  quad : Option Bool
  transform : Option (Option Unit)
deriving DecidableEq, Repr

/-- The three distinct warnings `FiredrakeMesh.__init__` may emit
(lines 139, 152, 161), one per missing flag key. -/
inductive Warn where
  | purify
  | quad
  | transform
deriving DecidableEq, Repr

/-- Observable outcome of a successful `FiredrakeMesh.__init__`: the warnings
emitted in order, the argument handed to the first `MeshMapping(...)` call,
and which structural changes were applied (`mesh.Split2Tets()`, the
`REFINETOBOX` quad transform, the caller-supplied transform). -/
structure InitResult where
  warnings : List Warn
  meshMapArg : InputMesh
  split2TetsCalled : Bool
  quadApplied : Bool
  transformApplied : Bool
deriving DecidableEq, Repr

/-- Lines 132-161, `FiredrakeMesh.__init__(self, mesh, netgen_flags, user_comm)`.
If the `isinstance` check of line 134 fails, `ValueError("Mesh format not
recognised.")` is raised (line 142) and the later flag blocks never run.
Otherwise: the `purify_to_tets` lookup either splits the mesh to tets (truthy),
silently skips (falsy), or warns on `KeyError` (lines 135-139), then
`MeshMapping(mesh)` is built (line 140); the `quad` lookup either applies the
`REFINETOBOX` transform and rebuilds the mapping (truthy), skips (falsy), or
warns on `KeyError` (lines 143-152); the `transform` lookup applies the
caller-supplied transform when the stored value is not `None`, and warns on
`KeyError` (lines 153-161). -/
def firedrakeMeshInit (ngsolveAvailable : Bool) (mesh : InputMesh)
    (netgen_flags : NetgenFlags) : Except String InitResult :=
  if isinstanceSerial ngsolveAvailable mesh then
    let purifyStep : List Warn × Bool :=
      match netgen_flags.purify_to_tets with
      | none => ([Warn.purify], false)
      | some b => ([], b)
    let quadStep : List Warn × Bool :=
      match netgen_flags.quad with
      | none => ([Warn.quad], false)
      | some b => ([], b)
    let transformStep : List Warn × Bool :=
      match netgen_flags.transform with
      | none => ([Warn.transform], false)
      | some t => ([], t.isSome)
    Except.ok
      { warnings := purifyStep.1 ++ quadStep.1 ++ transformStep.1
        meshMapArg := mesh
        split2TetsCalled := purifyStep.2
        quadApplied := quadStep.2
        transformApplied := transformStep.2 }
  else
    Except.error "Mesh format not recognised."

/-! ## Concrete states used by witnesses and counterexamples -/

/-- A concrete single-worker (no `sfBCInv`), rank-0, two-element, 2D refine
state with an all-zero (all-falsy) marking array. -/
def exRefine2 : RefineState where
  geometric_dimension := 2
  getOffset := fun i => i
  sfBCInv_present := false
  rank := 0
  marked := [0, 0]
  distributeField := fun l => l
  elements2D := [⟨false, false⟩, ⟨false, false⟩]

/-- The same state with geometric dimension 3. -/
def exRefine3 : RefineState :=
  { exRefine2 with geometric_dimension := 3 }

/-- A concrete 2D curving state: two elements, one reference point, DG data
rows `[[0,0],[1,0],[5,5]]`, element 0 curved with straight sample point
`(0,0)` (matching its DOF row) and curved point `(7,7)`, element 1 straight. -/
def exCurve2 : CurveState where
  geometric_dimension := 2
  getOffset := fun i => i
  round8 := fun x => x
  nRef := 1
  V := [[0, 0], [1, 0], [5, 5]]
  cellMapValues := fun c => if c = 0 then [0] else [1]
  n2 := 2
  curved2 := fun i => decide (i = 0)
  mapS2 := fun _ => [[0, 0]]
  mapC2 := fun _ => [[7, 7]]
  n3 := 0
  curved3 := fun _ => false
  mapS3 := fun _ => []
  mapC3 := fun _ => []

/-- The same curving state with the DOF row of the curved element replaced by
`(9,9)`, which matches none of the rounded straight sample points: the
dictionary lookup has no key for it. -/
def exCurve10 : CurveState :=
  { exCurve2 with V := [[9, 9], [1, 0], [5, 5]] }

/-- A concrete curving state with geometric dimension 1 (neither 2 nor 3). -/
def exCurve1 : CurveState :=
  { exCurve2 with geometric_dimension := 1 }

/-! ## Helper lemmas -/

theorem getD_mapIdx {α β : Type} (l : List α) (f : Nat → α → β) (i : Nat)
    (hi : i < l.length) (d : β) (d' : α) :
    (l.mapIdx f).getD i d = f i (l.getD i d') := by
  have h' : i < (l.mapIdx f).length := by
    simpa [List.length_mapIdx] using hi
  rw [List.getD_eq_getElem?_getD, List.getElem?_eq_getElem h',
    List.getD_eq_getElem?_getD, List.getElem?_eq_getElem hi]
  simp only [Option.getD_some]
  exact List.get_mapIdx l f i hi h'

theorem getD_zero_of_all_zero (l : List Int) (k : Nat) (h : ∀ v ∈ l, v = 0) :
    l.getD k 0 = 0 := by
  rcases Nat.lt_or_ge k l.length with hk | hk
  · refine h _ ?_
    rw [List.getD_eq_getElem?_getD, List.getElem?_eq_getElem hk]
    exact List.getElem_mem hk
  · exact List.getD_eq_default _ _ hk

theorem ngRefine_of_all_unflagged (els : List Element)
    (h : ∀ el ∈ els, el.refine = false) : ngRefine els = els := by
  induction els with
  | nil => rfl
  | cons e es ih =>
    have he : e.refine = false := h e (List.mem_cons_self _ _)
    have hes := ih fun el hel => h el (List.mem_cons_of_mem _ hel)
    simp [ngRefine, List.flatMap_cons, he] at *
    simpa [ngRefine] using hes

/-! ## Claims about `refineMarkedElements` -/

/-- C3: `refineMarkedElements` raises the `NotImplementedError`-class error
exactly when the mesh's geometric dimension is not 2, and in that case the
state (in particular every element's `refine` flag) is unchanged: the raise
precedes any mutation. -/
theorem refineMarkedElements_dimension_guard (st : RefineState) :
    ((refineMarkedElements st).1 =
        Except.error "No implementation for dimension other than 2." ↔
      st.geometric_dimension ≠ 2) ∧
    (st.geometric_dimension ≠ 2 → (refineMarkedElements st).2 = st) := by
  unfold refineMarkedElements
  by_cases h : st.geometric_dimension = 2
  · rw [if_pos h]
    by_cases hr : st.rank = 0 <;> simp [hr, h]
  · rw [if_neg h]
    simp [h]

/-- C3 witness: at the concrete dimension-3 state, `refineMarkedElements`
raises and the state is untouched. -/
theorem refineMarkedElements_dimension_guard_witness :
    (refineMarkedElements exRefine3).1 =
      Except.error "No implementation for dimension other than 2." ∧
    (refineMarkedElements exRefine3).2 = exRefine3 :=
  ⟨(refineMarkedElements_dimension_guard exRefine3).1.mpr (by decide),
   (refineMarkedElements_dimension_guard exRefine3).2 (by decide)⟩

/-- C4: on a 2D mesh, rank 0 sets every serial element's `refine` flag to the
truthiness of the resolved marking value at index `getIdx(i)`, invokes
adaptive refinement, and returns a mesh built from the refined serial mesh;
every non-zero rank returns a mesh built from an empty placeholder 2D serial
mesh with the state untouched. -/
theorem refineMarkedElements_rank_paths (st : RefineState)
    (hdim : st.geometric_dimension = 2) :
    (st.rank = 0 →
      refineMarkedElements st =
        (Except.ok (RefineResult.mesh (ngRefine (refineFlagged st))),
          { st with elements2D := ngRefine (refineFlagged st) })) ∧
    (st.rank ≠ 0 →
      refineMarkedElements st = (Except.ok (RefineResult.emptyMesh 2), st)) ∧
    (∀ i, i < st.elements2D.length →
      (refineFlagged st).getD i default =
        { st.elements2D.getD i default with
          refine :=
            truthy ((resolveMarking st).2.getD ((resolveMarking st).1 i) 0) }) := by
  refine ⟨fun hr => ?_, fun hr => ?_, fun i hi => ?_⟩
  · simp [refineMarkedElements, hdim, hr]
  · simp [refineMarkedElements, hdim, hr]
  · simp only [refineFlagged]
    rw [getD_mapIdx _ _ _ hi _ default]

/-- C4 witness: the rank-0 path at the concrete 2D state. -/
theorem refineMarkedElements_rank_paths_witness :
    exRefine2.geometric_dimension = 2 ∧
    refineMarkedElements exRefine2 =
      (Except.ok (RefineResult.mesh (ngRefine (refineFlagged exRefine2))),
        { exRefine2 with elements2D := ngRefine (refineFlagged exRefine2) }) :=
  ⟨by decide, (refineMarkedElements_rank_paths exRefine2 (by decide)).1 rfl⟩

/-- C5: when `sfBCInv` is absent, the `refine` flag of element `i` is the
truthiness of the local marking array at `cell_numbering.getOffset(i)`; when
`sfBCInv` is present, the marking array is first redistributed to serial order
by `distributeField` and the flag of element `i` is the truthiness of the
redistributed array at index `i` itself (identity, no offset lookup). -/
theorem marking_index_resolution (st : RefineState) (i : Nat)
    (hi : i < st.elements2D.length) :
    (st.sfBCInv_present = false →
      ((refineFlagged st).getD i default).refine =
        truthy (st.marked.getD (st.getOffset i) 0)) ∧
    (st.sfBCInv_present = true →
      ((refineFlagged st).getD i default).refine =
        truthy ((st.distributeField st.marked).getD i 0)) := by
  constructor <;> intro h <;>
    simp only [refineFlagged] <;>
    rw [getD_mapIdx _ _ _ hi _ default] <;>
    simp [resolveMarking, h]

/-- C5 witness: the single-worker branch at the concrete state. -/
theorem marking_index_resolution_witness :
    0 < exRefine2.elements2D.length ∧
    ((refineFlagged exRefine2).getD 0 default).refine =
      truthy (exRefine2.marked.getD (exRefine2.getOffset 0) 0) :=
  ⟨by decide, (marking_index_resolution exRefine2 0 (by decide)).1 rfl⟩

/-- C8: for an all-falsy resolved marking, every serial element's `refine`
flag is set to `False`, and the returned mesh has exactly as many elements as
the input serial mesh (the all-unflagged adaptive refinement keeps the
elements as they are). -/
theorem refineMarkedElements_all_falsy (st : RefineState)
    (hdim : st.geometric_dimension = 2) (hrank : st.rank = 0)
    (hfalsy : ∀ v ∈ (resolveMarking st).2, v = 0) :
    (∀ el ∈ refineFlagged st, el.refine = false) ∧
    (refineMarkedElements st).1 =
      Except.ok (RefineResult.mesh (refineFlagged st)) ∧
    (refineFlagged st).length = st.elements2D.length := by
  have hall : ∀ el ∈ refineFlagged st, el.refine = false := by
    intro el hel
    simp only [refineFlagged] at hel
    rw [List.mapIdx_eq_ofFn, List.mem_ofFn] at hel
    rcases hel with ⟨i, hi⟩
    rw [← hi]
    simp only [truthy, getD_zero_of_all_zero _ _ hfalsy]
    decide
  refine ⟨hall, ?_, by simp [refineFlagged, List.length_mapIdx]⟩
  have hng : ngRefine (refineFlagged st) = refineFlagged st :=
    ngRefine_of_all_unflagged _ hall
  simp [refineMarkedElements, hdim, hrank, hng]

/-- C8 witness: the concrete all-zero marking state. -/
theorem refineMarkedElements_all_falsy_witness :
    (∀ el ∈ refineFlagged exRefine2, el.refine = false) ∧
    (refineMarkedElements exRefine2).1 =
      Except.ok (RefineResult.mesh (refineFlagged exRefine2)) ∧
    (refineFlagged exRefine2).length = exRefine2.elements2D.length :=
  refineMarkedElements_all_falsy exRefine2 (by decide) (by decide) (by decide)

/-! ## Claims about `FiredrakeMesh.__init__` -/

/-- C7: with a recognized input mesh, the empty flags mapping `{}` succeeds
and emits exactly the three warnings (purify, quad, transform) with no
structural change, while flags that are present but falsy (`purify_to_tets`
`False`, `quad` `False`, `transform` `None`) succeed silently with no warning
and no structural change. -/
theorem init_empty_and_falsy_flags (ngsolveAvailable : Bool) (mesh : InputMesh)
    (hrec : isinstanceSerial ngsolveAvailable mesh = true) :
    (firedrakeMeshInit ngsolveAvailable mesh
        { purify_to_tets := none, quad := none, transform := none } =
      Except.ok
        { warnings := [Warn.purify, Warn.quad, Warn.transform]
          meshMapArg := mesh
          split2TetsCalled := false
          quadApplied := false
          transformApplied := false }) ∧
    (firedrakeMeshInit ngsolveAvailable mesh
        { purify_to_tets := some false, quad := some false,
          transform := some none } =
      Except.ok
        { warnings := []
          meshMapArg := mesh
          split2TetsCalled := false
          quadApplied := false
          transformApplied := false }) := by
  constructor <;> simp [firedrakeMeshInit, hrec]

/-- C7 witness: a netgen mesh input with the empty flags mapping. -/
theorem init_empty_and_falsy_flags_witness :
    isinstanceSerial true InputMesh.netgenMesh = true ∧
    firedrakeMeshInit true InputMesh.netgenMesh
        { purify_to_tets := none, quad := none, transform := none } =
      Except.ok
        { warnings := [Warn.purify, Warn.quad, Warn.transform]
          meshMapArg := InputMesh.netgenMesh
          split2TetsCalled := false
          quadApplied := false
          transformApplied := false } :=
  ⟨by decide, (init_empty_and_falsy_flags true InputMesh.netgenMesh (by decide)).1⟩

/-- C2 (code bug): contrary to the claim and to the class's own docstring
("it can be either a Netgen/NGSolve mesh or a PETSc DMPlex"), an
already-distributed plex handle is NOT accepted: the `isinstance` check of
line 134 only recognises `ngs.comp.Mesh` and `ngm.Mesh`, so a plex input
reaches `raise ValueError("Mesh format not recognised.")`, whether or not
ngsolve imported. -/
theorem init_plex_input_raises :
    firedrakeMeshInit true InputMesh.petscPlex
        { purify_to_tets := none, quad := none, transform := none } =
      Except.error "Mesh format not recognised." ∧
    firedrakeMeshInit false InputMesh.petscPlex
        { purify_to_tets := none, quad := none, transform := none } =
      Except.error "Mesh format not recognised." := by
  constructor <;> rfl

/-- C9: when the ngsolve import failed, `ngs.comp.Mesh` is `type(None)`, so
`mesh=None` passes the `isinstance` check and construction proceeds to wrap
`None` (it is handed to `MeshMapping`) instead of raising; with ngsolve
available the same input raises the mesh-format error — the recognized-format
check is import-environment-dependent. -/
theorem init_none_mesh_env_dependent :
    firedrakeMeshInit false InputMesh.pyNone
        { purify_to_tets := none, quad := none, transform := none } =
      Except.ok
        { warnings := [Warn.purify, Warn.quad, Warn.transform]
          meshMapArg := InputMesh.pyNone
          split2TetsCalled := false
          quadApplied := false
          transformApplied := false } ∧
    firedrakeMeshInit true InputMesh.pyNone
        { purify_to_tets := none, quad := none, transform := none } =
      Except.error "Mesh format not recognised." := by
  constructor <;> rfl

/-! ## Claims about `curveField` -/

/-- C1 (amended): for a geometric dimension that is neither 2 nor 3,
`curveField` raises no error at all: neither dimension branch runs,
`Curve` is never invoked (the serial mesh is not mutated), and the
straight-sided interpolated coordinate field is returned unchanged. -/
theorem curveField_other_dim_no_error (st : CurveState)
    (h2 : st.geometric_dimension ≠ 2) (h3 : st.geometric_dimension ≠ 3) :
    curveField st = Except.ok { data := st.V, curveInvoked := false } := by
  simp [curveField, h2, h3]

/-- C1 witness: the concrete dimension-1 state. -/
theorem curveField_other_dim_no_error_witness :
    (exCurve1.geometric_dimension ≠ 2 ∧ exCurve1.geometric_dimension ≠ 3) ∧
    curveField exCurve1 = Except.ok { data := exCurve1.V, curveInvoked := false } :=
  ⟨by decide, curveField_other_dim_no_error exCurve1 (by decide) (by decide)⟩

/-- C1 counterexample: at the concrete dimension-1 state the claimed
unsupported-dimension error is not raised — `curveField` returns `ok` with
the interpolated data and without having curved the serial mesh. -/
theorem curveField_dim1_returns_ok :
    curveField exCurve1 =
      Except.ok { data := [[0, 0], [1, 0], [5, 5]], curveInvoked := false } := by
  rfl

theorem getD_set_ne_pt (l : List Pt) (i j : Nat) (a : Pt) (h : i ≠ j) :
    (l.set i a).getD j [] = l.getD j [] := by
  simp [List.getD_eq_getElem?_getD, List.getElem?_set_ne h]

theorem writeBack_getD_of_not_mem (d : Nat) (pairs : List (Nat × Pt))
    (data : List Pt) (s : Nat) (hs : s ∉ pairs.map Prod.fst) :
    (writeBack d data pairs).getD s [] = data.getD s [] := by
  induction pairs generalizing data with
  | nil => rfl
  | cons p ps ih =>
    simp only [List.map_cons, List.mem_cons] at hs
    push_neg at hs
    have hstep :
        writeBack d data (p :: ps) =
          writeBack d
            (data.set p.1 ((p.2.take d) ++ ((data.getD p.1 []).drop d))) ps := rfl
    rw [hstep, ih _ hs.2, getD_set_ne_pt _ _ _ _ (Ne.symm hs.1)]

theorem mem_of_mem_map_fst_zip {α β : Type} (l : List α) (l' : List β) (s : α)
    (h : s ∈ (l.zip l').map Prod.fst) : s ∈ l := by
  rcases List.mem_map.mp h with ⟨⟨a, b⟩, hab, rfl⟩
  exact (List.of_mem_zip hab).1

theorem processCell_frame (st : CurveState) (curved : Nat → Bool)
    (mapS mapC : Nat → List Pt) (d : Nat) (data data' : List Pt) (i s : Nat)
    (hs : curved i = true → s ∉ cellSlots st i)
    (h : processCell st curved mapS mapC d data i = Except.ok data') :
    data'.getD s [] = data.getD s [] := by
  unfold processCell at h
  by_cases hc : curved i = true
  · rw [if_pos hc] at h
    cases hm : (dofRows st data i).mapM
        (fun r => dictLookup (roundedKeys st mapS i) (r.map st.round8)) with
    | none =>
      rw [hm] at h
      exact Except.noConfusion h
    | some p =>
      rw [hm] at h
      have h' : Except.ok (writeBack d data
          ((cellSlots st i).zip (p.map fun j => (mapC i).getD j []))) =
          Except.ok data' := h
      injection h' with h''
      rw [← h'']
      refine writeBack_getD_of_not_mem _ _ _ _ fun hmem => ?_
      exact hs hc (mem_of_mem_map_fst_zip _ _ _ hmem)
  · rw [if_neg hc] at h
    have h' : Except.ok data = Except.ok data' := h
    injection h' with h''
    rw [← h'']

theorem foldlM_processCell_frame (st : CurveState) (curved : Nat → Bool)
    (mapS mapC : Nat → List Pt) (d : Nat) (s : Nat) :
    ∀ (l : List Nat), (∀ i ∈ l, curved i = true → s ∉ cellSlots st i) →
    ∀ (data data' : List Pt),
      l.foldlM (processCell st curved mapS mapC d) data = Except.ok data' →
      data'.getD s [] = data.getD s [] := by
  intro l
  induction l with
  | nil =>
    intro _ data data' h
    have h' : Except.ok data = Except.ok data' := h
    injection h' with h''
    rw [← h'']
  | cons i is ih =>
    intro hs data data' h
    rw [List.foldlM_cons] at h
    cases hp : processCell st curved mapS mapC d data i with
    | error e =>
      rw [hp] at h
      exact Except.noConfusion h
    | ok data1 =>
      rw [hp] at h
      have h1 : is.foldlM (processCell st curved mapS mapC d) data1 =
          Except.ok data' := h
      rw [ih (fun j hj => hs j (List.mem_cons_of_mem _ hj)) data1 data' h1,
        processCell_frame st curved mapS mapC d data data1 i s
          (hs i (List.mem_cons_self _ _)) hp]

/-- C6: a DOF data row whose index belongs to no curved element's cell-map
slots is never overwritten: whenever `curveField` returns a coordinate field,
that row still holds its straight-sided interpolated value.  Only DOF slots of
elements flagged `curved` are written. -/
theorem curveField_preserves_uncurved_dofs (st : CurveState) (s : Nat)
    (h2 : ∀ i, i < st.n2 → st.curved2 i = true → s ∉ cellSlots st i)
    (h3 : ∀ i, i < st.n3 → st.curved3 i = true → s ∉ cellSlots st i)
    (out : CurveOut) (hout : curveField st = Except.ok out) :
    out.data.getD s [] = st.V.getD s [] := by
  unfold curveField at hout
  by_cases hd2 : st.geometric_dimension = 2
  · rw [if_pos hd2] at hout
    cases hl : curveLoop st st.curved2 st.mapS2 st.mapC2 2 st.n2 with
    | error e =>
      rw [hl] at hout
      exact Except.noConfusion hout
    | ok data =>
      rw [hl] at hout
      have h' : Except.ok ({ data := data, curveInvoked := true } : CurveOut) =
          Except.ok out := hout
      injection h' with h''
      rw [← h'']
      exact foldlM_processCell_frame st st.curved2 st.mapS2 st.mapC2 2 s
        (List.range st.n2) (fun i hi => h2 i (List.mem_range.mp hi)) st.V data hl
  · rw [if_neg hd2] at hout
    by_cases hd3 : st.geometric_dimension = 3
    · rw [if_pos hd3] at hout
      cases hl : curveLoop st st.curved3 st.mapS3 st.mapC3 3 st.n3 with
      | error e =>
        rw [hl] at hout
        exact Except.noConfusion hout
      | ok data =>
        rw [hl] at hout
        have h' : Except.ok ({ data := data, curveInvoked := true } : CurveOut) =
            Except.ok out := hout
        injection h' with h''
        rw [← h'']
        exact foldlM_processCell_frame st st.curved3 st.mapS3 st.mapC3 3 s
          (List.range st.n3) (fun i hi => h3 i (List.mem_range.mp hi)) st.V data hl
    · rw [if_neg hd3] at hout
      have h' : Except.ok ({ data := st.V, curveInvoked := false } : CurveOut) =
          Except.ok out := hout
      injection h' with h''
      rw [← h'']

/-- C6 witness: in the concrete two-element state only the curved element's
slot (index 0) is overwritten; row 1 keeps its interpolated value. -/
theorem curveField_preserves_uncurved_dofs_witness :
    curveField exCurve2 =
      Except.ok { data := [[7, 7], [1, 0], [5, 5]], curveInvoked := true } ∧
    ({ data := [[7, 7], [1, 0], [5, 5]], curveInvoked := true } :
        CurveOut).data.getD 1 [] = exCurve2.V.getD 1 [] :=
  ⟨by rfl,
   curveField_preserves_uncurved_dofs exCurve2 1 (by decide) (by decide)
     { data := [[7, 7], [1, 0], [5, 5]], curveInvoked := true } (by rfl)⟩

theorem mapM_option_eq_none_iff {α β : Type} (f : α → Option β) (l : List α) :
    l.mapM f = none ↔ ∃ a ∈ l, f a = none := by
  induction l with
  | nil =>
    rw [List.mapM_nil]
    simp
  | cons a as ih =>
    rw [List.mapM_cons]
    cases hf : f a with
    | none => simp [hf]
    | some b =>
      cases has : as.mapM f with
      | none => simp [hf, has, ih.mp has]
      | some bs =>
        have hall := ih.not.mp (by rw [has]; exact fun h => Option.noConfusion h)
        push_neg at hall
        simp only [hf, has, Option.bind_eq_bind, Option.some_bind]
        constructor
        · intro h
          exact absurd h (by simp)
        · rintro ⟨x, hx, hnone⟩
          rcases List.mem_cons.mp hx with rfl | hx'
          · exact absurd hnone (by rw [hf]; exact fun h => Option.noConfusion h)
          · exact absurd hnone (hall x hx')

theorem dofRows_writeBack_disjoint (st : CurveState) (d : Nat) (data : List Pt)
    (pairs : List (Nat × Pt)) (j : Nat)
    (hdis : ∀ s ∈ cellSlots st j, s ∉ pairs.map Prod.fst) :
    dofRows st (writeBack d data pairs) j = dofRows st data j := by
  unfold dofRows
  refine List.map_congr_left fun s hs => ?_
  exact writeBack_getD_of_not_mem d pairs data s (hdis s hs)

theorem foldlM_keyError_iff (st : CurveState) (curved : Nat → Bool)
    (mapS mapC : Nat → List Pt) (d : Nat) :
    ∀ (l : List Nat), l.Nodup →
    (∀ i ∈ l, ∀ j ∈ l, i ≠ j → curved i = true → curved j = true →
      ∀ s ∈ cellSlots st i, s ∉ cellSlots st j) →
    ∀ data : List Pt,
      (∀ i ∈ l, curved i = true → dofRows st data i = dofRows st st.V i) →
      (l.foldlM (processCell st curved mapS mapC d) data =
          Except.error "KeyError" ↔
        ∃ i ∈ l, curved i = true ∧
          ∃ r ∈ dofRows st st.V i,
            dictLookup (roundedKeys st mapS i) (r.map st.round8) = none) := by
  intro l
  induction l with
  | nil =>
    intro _ _ data _
    constructor
    · intro h
      exact Except.noConfusion h
    · rintro ⟨i, hi, -⟩
      exact absurd hi (List.not_mem_nil i)
  | cons i is ih =>
    intro hnd hdisj data hagree
    rw [List.foldlM_cons]
    by_cases hc : curved i = true
    · have hrows : dofRows st data i = dofRows st st.V i :=
        hagree i (List.mem_cons_self _ _) hc
      cases hm : (dofRows st data i).mapM
          (fun r => dictLookup (roundedKeys st mapS i) (r.map st.round8)) with
      | none =>
        have hpc : processCell st curved mapS mapC d data i =
            Except.error "KeyError" := by
          unfold processCell
          rw [if_pos hc, hm]
        rw [hpc]
        constructor
        · intro _
          refine ⟨i, List.mem_cons_self _ _, hc, ?_⟩
          rw [← hrows]
          exact (mapM_option_eq_none_iff _ _).mp hm
        · intro _
          rfl
      | some p =>
        have hpc : processCell st curved mapS mapC d data i =
            Except.ok (writeBack d data
              ((cellSlots st i).zip (p.map fun j => (mapC i).getD j []))) := by
          unfold processCell
          rw [if_pos hc, hm]
        rw [hpc]
        have hnomiss : ∀ r ∈ dofRows st st.V i,
            dictLookup (roundedKeys st mapS i) (r.map st.round8) ≠ none := by
          intro r hr hnone
          have : (dofRows st data i).mapM
              (fun r => dictLookup (roundedKeys st mapS i) (r.map st.round8)) =
              none :=
            (mapM_option_eq_none_iff _ _).mpr ⟨r, by rw [hrows]; exact hr, hnone⟩
          rw [hm] at this
          exact Option.noConfusion this
        have hi_not_is : i ∉ is := (List.nodup_cons.mp hnd).1
        have hagree1 : ∀ j ∈ is, curved j = true →
            dofRows st (writeBack d data
              ((cellSlots st i).zip (p.map fun j => (mapC i).getD j []))) j =
              dofRows st st.V j := by
          intro j hj hcj
          have hne : i ≠ j := fun hij => hi_not_is (hij ▸ hj)
          rw [dofRows_writeBack_disjoint st d data _ j fun s hsj hsmem =>
              hdisj i (List.mem_cons_self _ _) j (List.mem_cons_of_mem _ hj) hne
                hc hcj s (mem_of_mem_map_fst_zip _ _ _ hsmem) hsj,
            hagree j (List.mem_cons_of_mem _ hj) hcj]
        have hiff := ih (List.nodup_cons.mp hnd).2
          (fun a ha b hb => hdisj a (List.mem_cons_of_mem _ ha) b
            (List.mem_cons_of_mem _ hb))
          (writeBack d data
            ((cellSlots st i).zip (p.map fun j => (mapC i).getD j [])))
          hagree1
        constructor
        · intro h
          rcases hiff.mp h with ⟨j, hj, hcj, hr⟩
          exact ⟨j, List.mem_cons_of_mem _ hj, hcj, hr⟩
        · rintro ⟨j, hj, hcj, r, hr, hnone⟩
          rcases List.mem_cons.mp hj with rfl | hj'
          · exact absurd hnone (hnomiss r hr)
          · exact hiff.mpr ⟨j, hj', hcj, r, hr, hnone⟩
    · have hpc : processCell st curved mapS mapC d data i = Except.ok data := by
        unfold processCell
        rw [if_neg hc]
      rw [hpc]
      have hiff := ih (List.nodup_cons.mp hnd).2
        (fun a ha b hb => hdisj a (List.mem_cons_of_mem _ ha) b
          (List.mem_cons_of_mem _ hb))
        data (fun j hj => hagree j (List.mem_cons_of_mem _ hj))
      constructor
      · intro h
        rcases hiff.mp h with ⟨j, hj, hcj, hr⟩
        exact ⟨j, List.mem_cons_of_mem _ hj, hcj, hr⟩
      · rintro ⟨j, hj, hcj, hr⟩
        rcases List.mem_cons.mp hj with rfl | hj'
        · exact absurd hcj hc
        · exact hiff.mpr ⟨j, hj', hcj, hr⟩

theorem curveLoop_keyError_iff (st : CurveState) (curved : Nat → Bool)
    (mapS mapC : Nat → List Pt) (d n : Nat)
    (hdisj : ∀ i, i < n → ∀ j, j < n → i ≠ j → curved i = true →
      curved j = true → ∀ s ∈ cellSlots st i, s ∉ cellSlots st j) :
    ((curveLoop st curved mapS mapC d n).map
        (fun data => ({ data := data, curveInvoked := true } : CurveOut)) =
      Except.error "KeyError" ↔
      ∃ i, i < n ∧ curved i = true ∧
        ∃ r ∈ dofRows st st.V i,
          dictLookup (roundedKeys st mapS i) (r.map st.round8) = none) := by
  have hiff := foldlM_keyError_iff st curved mapS mapC d
    (List.range n) (List.nodup_range _)
    (fun i hi j hj => hdisj i (List.mem_range.mp hi) j (List.mem_range.mp hj))
    st.V (fun _ _ _ => rfl)
  constructor
  · intro h
    have hl : curveLoop st curved mapS mapC d n = Except.error "KeyError" := by
      cases hc : curveLoop st curved mapS mapC d n with
      | error e =>
        rw [hc] at h
        have h' : (Except.error e : Except String CurveOut) =
            Except.error "KeyError" := h
        injection h' with h''
        rw [h'']
      | ok data =>
        rw [hc] at h
        exact Except.noConfusion h
    rcases hiff.mp hl with ⟨i, hi, hci, hr⟩
    exact ⟨i, List.mem_range.mp hi, hci, hr⟩
  · rintro ⟨i, hi, hci, hr⟩
    have hl : curveLoop st curved mapS mapC d n = Except.error "KeyError" :=
      hiff.mpr ⟨i, List.mem_range.mpr hi, hci, hr⟩
    rw [hl]
    rfl

/-- C10: in either dimension branch of `curveField` (with per-cell-disjoint
DOF slots, the DG layout), the uncaught `KeyError` from the `dofMap` lookup is
raised exactly when some curved element has a DOF coordinate row in the
interpolated field whose rounded value equals none of that element's rounded
straight-sided sample points; when every row of every curved element matches,
no error is raised. -/
theorem curveField_keyError_iff (st : CurveState)
    (hdisj2 : ∀ i, i < st.n2 → ∀ j, j < st.n2 → i ≠ j → st.curved2 i = true →
      st.curved2 j = true → ∀ s ∈ cellSlots st i, s ∉ cellSlots st j)
    (hdisj3 : ∀ i, i < st.n3 → ∀ j, j < st.n3 → i ≠ j → st.curved3 i = true →
      st.curved3 j = true → ∀ s ∈ cellSlots st i, s ∉ cellSlots st j) :
    (st.geometric_dimension = 2 →
      (curveField st = Except.error "KeyError" ↔
        ∃ i, i < st.n2 ∧ st.curved2 i = true ∧
          ∃ r ∈ dofRows st st.V i,
            dictLookup (roundedKeys st st.mapS2 i) (r.map st.round8) = none)) ∧
    (st.geometric_dimension = 3 →
      (curveField st = Except.error "KeyError" ↔
        ∃ i, i < st.n3 ∧ st.curved3 i = true ∧
          ∃ r ∈ dofRows st st.V i,
            dictLookup (roundedKeys st st.mapS3 i) (r.map st.round8) = none)) := by
  constructor
  · intro hd2
    unfold curveField
    rw [if_pos hd2]
    exact curveLoop_keyError_iff st st.curved2 st.mapS2 st.mapC2 2 st.n2 hdisj2
  · intro hd3
    unfold curveField
    rw [if_neg (by rw [hd3]; decide), if_pos hd3]
    exact curveLoop_keyError_iff st st.curved3 st.mapS3 st.mapC3 3 st.n3 hdisj3

/-- C10 witness: in the concrete 2D state whose curved element's DOF row
`(9,9)` matches no rounded sample point, `curveField` raises the `KeyError`. -/
theorem curveField_keyError_iff_witness :
    curveField exCurve10 = Except.error "KeyError" :=
  ((curveField_keyError_iff exCurve10
    (by
      intro i _ j _ hne hci hcj
      exact absurd ((of_decide_eq_true hci).trans
        (of_decide_eq_true hcj).symm) hne)
    (fun i hi => absurd hi (Nat.not_lt_zero i))).1 (by decide)).mpr (by decide)

end NgsPETScFiredrake
